import Mathlib

/-!
Shallow embedding of the p25rx repository (src/hub.rs, src/replay.rs, src/main.rs)
for checking its natural-language specification.

Conventions:
* Machine integers (`u32`, `usize`, `RawFd`) are modelled as `Nat`; the token word
  is a 64-bit `usize`, so bitwise complement is taken against `2^64 - 1`.
* Sockets (`TcpStream`) are identified by an abstract id; the outcome of socket
  I/O is supplied by a boolean oracle, since real I/O is outside the embedding.
* Types owned by the external `p25` decoder crate (`TsbkFields`,
  `LinkControlFields`, `ChannelParamsMap`, the message receiver, `Stats`) are
  opaque: their contents are wrapped `Nat`s or type parameters, and their
  operations (`ChannelParamsMap::update`, decoder stepping, stats merging) are
  universally quantified function parameters.
-/

namespace P25rx

/-! ## Token packing — src/hub.rs lines 51-103 -/

/-- `const CONNS: usize = 1 << 31` (hub.rs:51). -/
def CONNS : Nat := 2 ^ 31

/-- `const EVENTS: usize = 1 << 30` (hub.rs:52). -/
def EVENTS : Nat := 2 ^ 30

/-- `const REQUEST: usize = 1 << 29` (hub.rs:53). -/
def REQUEST : Nat := 2 ^ 29

/-- `const FD_MASK: RawFd = (1 << 24) - 1` (hub.rs:59). -/
def FD_MASK : Nat := 2 ^ 24 - 1

/-- `const TAG_MASK: usize = !(FD_MASK as usize)` (hub.rs:62): bitwise complement
of `FD_MASK` in a 64-bit `usize`, written as xor against the all-ones word. -/
def TAG_MASK : Nat := (2 ^ 64 - 1) ^^^ FD_MASK

/-- `enum HubToken` (hub.rs:68-75). -/
inductive HubToken
  /-- Socket connection. -/
  | Conns
  /-- Channel events. -/
  | Events
  /-- Request stream with contained file descriptor. -/
  | Request (fd : Nat)
deriving DecidableEq, Repr

/-- `impl From<HubToken> for Token` (hub.rs:77-85). -/
def HubToken.toToken : HubToken → Nat
  | .Conns => CONNS
  | .Events => EVENTS
  | .Request fd => REQUEST ||| fd

/-- `impl From<Token> for HubToken` (hub.rs:87-96), matching on `tok.0 & TAG_MASK`;
the `panic!` arm is `none`. -/
def hubTokenOfToken (tok : Nat) : Option HubToken :=
  if tok &&& TAG_MASK = CONNS then some .Conns
  else if tok &&& TAG_MASK = EVENTS then some .Events
  else if tok &&& TAG_MASK = REQUEST then some (.Request (tok &&& FD_MASK))
  else none


/-! ## Sockets, HTTP primitives — src/hub.rs -/

/-- A `TcpStream` is identified by an abstract socket id; the outcome of real
socket I/O on it is supplied by boolean oracles. -/
abbrev TcpStream := Nat

/-- `uhttp_status::StatusCode` variants used by hub.rs. -/
inductive StatusCode
  | Ok
  | NotFound
  | MethodNotAllowed
  | TooManyRequests
  | InternalServerError
  | NotImplemented
deriving DecidableEq, Repr

/-- Numeric HTTP code of each status. -/
def StatusCode.code : StatusCode → Nat
  | .Ok => 200
  | .NotFound => 404
  | .MethodNotAllowed => 405
  | .TooManyRequests => 429
  | .InternalServerError => 500
  | .NotImplemented => 501

/-- `uhttp_method::Method` as used by the dispatch in `handle_request`; every
method other than the three handled ones collapses into `OtherMethod`. -/
inductive Method
  | Get
  | Put
  | Options
  | OtherMethod
deriving DecidableEq, Repr

/-- `enum Route` (hub.rs:32-37). -/
inductive Route
  | Subscribe
  | CtlFreq
deriving DecidableEq, Repr

/-- `impl TryFrom<HttpResource> for Route` (hub.rs:39-49). -/
def routeFromPath (path : String) : Except StatusCode Route :=
  if path = "/subscribe" then .ok .Subscribe
  else if path = "/ctlfreq" then .ok .CtlFreq
  else .error .NotFound

/-! ## Opaque types of the external p25 crate -/

/-- `TsbkFields` (external p25 crate): opaque, copyable POD frame. -/
structure TsbkFields where
  raw : Nat
deriving DecidableEq, Repr

/-- `LinkControlFields` (external p25 crate): opaque, copyable POD frame. -/
structure LinkControlFields where
  raw : Nat
deriving DecidableEq, Repr

/-- `ChannelParamsMap` (external p25 crate): opaque; its `update` operation is
taken as an abstract function parameter `chanUpdate` throughout. -/
structure ChannelParamsMap where
  raw : Nat
deriving DecidableEq, Repr

/-- `ChannelParamsMap::default()` (external p25 crate): the opaque default map. -/
def ChannelParamsMap.default : ChannelParamsMap := ⟨0⟩

/-- Opaque stand-in for the `f32` signal-power payload; the hub never computes
on it, only serializes it. -/
structure SigPower where
  raw : Int
deriving DecidableEq, Repr

/-! ## Hub state and events — src/hub.rs -/

/-- `enum StateEvent` (hub.rs:414-420). -/
inductive StateEvent
  | UpdateCtlFreq (f : Nat)
  | UpdateChannelParams (tsbk : TsbkFields)
deriving DecidableEq, Repr

/-- `enum HubEvent` (hub.rs:397-411). -/
inductive HubEvent
  | State (e : StateEvent)
  | UpdateCurFreq (f : Nat)
  | UpdateTalkGroup (tg : Nat)
  | UpdateSignalPower (p : SigPower)
  | TrunkingControl (tsbk : TsbkFields)
  | LinkControl (lc : LinkControlFields)
deriving DecidableEq, Repr

/-- `struct State` (hub.rs:423-428). -/
structure State where
  ctlfreq : Nat
  channels : ChannelParamsMap
deriving DecidableEq, Repr

/-- `impl Default for State` (hub.rs:430-437): the unknown control frequency is
the sentinel `u32::MAX`. -/
def State.default : State :=
  { ctlfreq := 2 ^ 32 - 1, channels := ChannelParamsMap.default }

/-- `State::update` (hub.rs:439-450); `chanUpdate` abstracts the external
`ChannelParamsMap::update` applied to `ChannelParamsUpdate::new(tsbk.payload())`. -/
def State.update (chanUpdate : ChannelParamsMap → TsbkFields → ChannelParamsMap)
    (s : State) : StateEvent → State
  | .UpdateCtlFreq f => { s with ctlfreq := f }
  | .UpdateChannelParams tsbk => { s with channels := chanUpdate s.channels tsbk }

/-- `struct HubTask` (hub.rs:106-119), restricted to the mutable state the
claims concern: the state replica and the subscriber vector. The socket, poll
handle and channel endpoints are pure I/O resources. -/
structure HubTask where
  state : State
  streamers : List TcpStream
deriving DecidableEq, Repr

/-- `ArrayVec::is_full` on the capacity-4 streamers vector (hub.rs:114, 254). -/
def streamersFull (l : List TcpStream) : Bool := l.length == 4

/-- `ArrayVec::push` on the capacity-4 streamers vector (hub.rs:260): appends
below capacity and rejects the element at capacity. -/
def streamersPush (l : List TcpStream) (s : TcpStream) : List TcpStream :=
  if l.length < 4 then l ++ [s] else l

/-- The pop/keep drain loop of `HubTask::handle_event` (hub.rs:215-229): `pop`
removes the most recently pushed stream (the end of the list), each popped
stream is kept exactly when `stream_event` on it returned `Ok` (the oracle
`ok`), and kept streams are pushed onto the fresh `keep` vector in pop order,
which then replaces `streamers`. -/
def drainKeep (ok : TcpStream → Bool) (streamers : List TcpStream) : List TcpStream :=
  streamers.reverse.foldl (fun keep s => if ok s then keep ++ [s] else keep) []

/-- `HubTask::handle_event` (hub.rs:210-230). `chanUpdate` abstracts the external
`ChannelParamsMap::update`; `wOk s e` abstracts whether `stream_event(&mut s, &e)`
(hub.rs:311-357, socket I/O) returned `Ok`. -/
def HubTask.handle_event
    (chanUpdate : ChannelParamsMap → TsbkFields → ChannelParamsMap)
    (wOk : TcpStream → HubEvent → Bool) (h : HubTask) (e : HubEvent) : HubTask :=
  let st := match e with
    | .State sm => h.state.update chanUpdate sm
    | _ => h.state
  { state := st, streamers := drainKeep (fun s => wOk s e) h.streamers }

/-- Modelled from the spec: `RecvEvent` is declared in the receiver module
(src/recv.rs, not among the provided sources); spec §4.4 gives the hub-facing
control command variant `SetControlFreq(Frequency)`, the only one hub.rs sends. -/
inductive RecvEvent
  | SetControlFreq (f : Nat)
deriving DecidableEq, Repr

/-- One parsed HTTP request together with the oracle outcomes of the I/O that
`handle_request` performs on it: `jsonCtlfreq` is the result of
`read_json::<SerdeCtlFreq>` (hub.rs:276), `cloneOk` of `try_clone` (hub.rs:252),
`headerOk` of the `start_stream` header writes (hub.rs:302-309), `sendOk` of the
`recv` channel send (hub.rs:280), and `newStream` is the identity of the
connection socket. -/
structure HttpReqModel where
  version : Nat × Nat
  method : Method
  path : String
  jsonCtlfreq : Except StatusCode Nat
  cloneOk : Bool
  headerOk : Bool
  sendOk : Bool
  newStream : TcpStream
deriving Repr

/-- Writes the hub attempts on the request's client socket. -/
inductive ClientWrite
  | status (c : StatusCode)
  | jsonCtlFreq (v : Nat)
  | sseHeaderStart
  | corsHeaders
deriving DecidableEq, Repr

/-- Outcome of handling one request: the `HttpResult`, the streamers vector
afterwards, the events delivered on the `recv` channel, and the attempted
client writes in order. -/
structure ReqOutcome where
  result : Except StatusCode Unit
  streamers : List TcpStream
  recvSent : List RecvEvent
  writes : List ClientWrite
deriving Repr

/-- `HubTask::handle_request` (hub.rs:240-299). A failed `recv.send` delivers
nothing, so `recvSent` is empty in that branch. -/
def HubTask.handle_request (h : HubTask) (r : HttpReqModel) : ReqOutcome :=
  match routeFromPath r.path with
  | .error e => ⟨.error e, h.streamers, [], []⟩
  | .ok route =>
    if r.version ≠ (1, 1) then ⟨.error .NotImplemented, h.streamers, [], []⟩
    else
      match r.method, route with
      | .Get, .Subscribe =>
        if r.cloneOk then
          if streamersFull h.streamers then
            ⟨.error .TooManyRequests, h.streamers, [], []⟩
          else if r.headerOk then
            ⟨.ok (), streamersPush h.streamers r.newStream, [], [.sseHeaderStart]⟩
          else
            ⟨.ok (), h.streamers, [], [.sseHeaderStart]⟩
        else ⟨.error .InternalServerError, h.streamers, [], []⟩
      | .Get, .CtlFreq => ⟨.ok (), h.streamers, [], [.jsonCtlFreq h.state.ctlfreq]⟩
      | .Put, .CtlFreq =>
        match r.jsonCtlfreq with
        | .error e => ⟨.error e, h.streamers, [], []⟩
        | .ok f =>
          if r.sendOk then
            ⟨.ok (), h.streamers, [.SetControlFreq f], [.status .Ok]⟩
          else ⟨.error .InternalServerError, h.streamers, [], []⟩
      | .Options, _ => ⟨.ok (), h.streamers, [], [.corsHeaders]⟩
      | _, _ => ⟨.error .MethodNotAllowed, h.streamers, [], []⟩

/-- `HubTask::handle_stream` (hub.rs:233-238): an `Err(e)` from `handle_request`
is answered by writing status `e` back to the client; an `Ok` adds nothing. -/
def HubTask.handle_stream (h : HubTask) (r : HttpReqModel) : ReqOutcome :=
  let o := h.handle_request r
  match o.result with
  | .ok _ => o
  | .error e => { o with writes := o.writes ++ [.status e] }

/-! ## The Request arm of handle_poll — src/hub.rs lines 166-173 -/

/-- Observable actions of the `HubToken::Request(fd)` arm of
`HubTask::handle_poll` (hub.rs:166-173). -/
inductive HubAction
  /-- `TcpStream::from_raw_fd(fd)` (hub.rs:167). -/
  | MkStream (fd : Nat)
  /-- `events.deregister(&EventedFd(&fd))` (hub.rs:169). -/
  | Deregister (fd : Nat)
  /-- `self.handle_stream(stream)` (hub.rs:172). -/
  | HandleStream (fd : Nat)
deriving DecidableEq, Repr

/-- The `HubToken::Request(fd)` arm of `handle_poll` as its action trace in
program order (hub.rs:166-173). -/
def handle_poll_request (fd : Nat) : List HubAction :=
  [.MkStream fd, .Deregister fd, .HandleStream fd]

/-- `a` occurs strictly before `b` in the trace `l`. -/
def occursBefore (a b : HubAction) (l : List HubAction) : Prop :=
  List.Sublist [a, b] l

/-! ## Replay — src/replay.rs -/

/-- Sample capacity of the 32768-byte read buffer of `ReplayReceiver::replay`
(replay.rs:28): `slice_cast::cast(&buf[..])` reinterprets the whole buffer as
8192 `f32`s. -/
def BUF_SAMPLES : Nat := 8192

/-- The read/feed loop of `ReplayReceiver::replay` (replay.rs:27-39), at sample
granularity: each `read` copies `min(remaining, 32768)` file bytes into the
front of the reused buffer and the loop then feeds the **entire** buffer
`&buf[..]` — not `&buf[..size]` — to `feed`. The result is the concatenation of
the successive whole-buffer contents; `α` is the sample type (`f32`). -/
def replayLoop {α : Type} (buf : List α) : List α → List α
  | [] => []
  | x :: rest =>
    let chunk := (x :: rest).take BUF_SAMPLES
    let buf' := chunk ++ buf.drop chunk.length
    buf' ++ replayLoop buf' ((x :: rest).drop BUF_SAMPLES)
termination_by file => file.length
decreasing_by
  simp only [List.length_drop, List.length_cons, BUF_SAMPLES]
  omega

/-- The sample sequence `ReplayReceiver::replay` feeds to the P25 decoder on a
replay file holding `file`, starting from the zero-initialised buffer
(`let mut buf = [0; 32768]`, replay.rs:28); `z` is the sample made of four zero
bytes (`0.0f32`). -/
def replayFedSamples {α : Type} (z : α) (file : List α) : List α :=
  replayLoop (List.replicate BUF_SAMPLES z) file

/-- `MessageEvent` of the external p25 decoder, as matched by
`ReplayReceiver::feed` (replay.rs:52-56); the wildcard arm collapses every other
variant into `OtherEvent`. `φ` is the voice-frame type, `ε` the error type. -/
inductive MessageEvent (φ ε : Type)
  | Error (e : ε)
  | VoiceFrame (vf : φ)
  | OtherEvent
deriving DecidableEq, Repr

/-- The voice-frame payload of a decoder event, if any. -/
def MessageEvent.toVoice {φ ε : Type} : MessageEvent φ ε → Option φ
  | .VoiceFrame vf => some vf
  | _ => none

/-- The voice-frame payloads of an event list, in order. -/
def voiceFrames {φ ε : Type} (l : List (MessageEvent φ ε)) : List φ :=
  l.filterMap MessageEvent.toVoice

/-- Running state of `ReplayReceiver::feed` (replay.rs:41-58): decoder state
`msg`, stats `stats`, the frames passed to `audio.play` in order, and — as the
observation the claims speak about — the events yielded by `msg.feed` in order. -/
structure FeedAcc (σ τ φ ε : Type) where
  msg : σ
  stats : τ
  played : List φ
  yielded : List (MessageEvent φ ε)

/-- One iteration of the `for &sample in samples` loop of `ReplayReceiver::feed`
(replay.rs:44-57). `step` abstracts `MessageReceiver::feed`, `merge` abstracts
`Stats::merge(&mut self.msg)` (which may inspect and reset decoder-side
counters), and `recordErr` abstracts `Stats::record_err`; all three live in the
external p25 library. `audio.play(&vf)` appends `vf` to `played` — modelled from
the spec §4.5: the audio output consumes each voice frame passed to it. -/
def feedOne {σ τ φ ε ι : Type} (step : σ → ι → σ × Option (MessageEvent φ ε))
    (merge : τ → σ → τ × σ) (recordErr : τ → ε → τ)
    (a : FeedAcc σ τ φ ε) (sample : ι) : FeedAcc σ τ φ ε :=
  match step a.msg sample with
  | (m, none) => { a with msg := m }
  | (m, some ev) =>
    let p := merge a.stats m
    let a' : FeedAcc σ τ φ ε :=
      { a with msg := p.2, stats := p.1, yielded := a.yielded ++ [ev] }
    match ev with
    | .Error e => { a' with stats := recordErr a'.stats e }
    | .VoiceFrame vf => { a' with played := a'.played ++ [vf] }
    | .OtherEvent => a'

/-- `ReplayReceiver::feed` (replay.rs:41-58) over a list of samples. -/
def ReplayReceiver.feed {σ τ φ ε ι : Type}
    (step : σ → ι → σ × Option (MessageEvent φ ε))
    (merge : τ → σ → τ × σ) (recordErr : τ → ε → τ)
    (a : FeedAcc σ τ φ ε) (samples : List ι) : FeedAcc σ τ φ ε :=
  samples.foldl (feedOne step merge recordErr) a

/-! ## Theorems -/

/-- The tag bit survives masking a packed request token with `TAG_MASK`. -/
theorem request_lor_land_tag (fd : Nat) (h : fd < 2 ^ 24) :
    (REQUEST ||| fd) &&& TAG_MASK = REQUEST := by
  show ((2 ^ 29 ||| fd) &&& ((2 ^ 64 - 1 : Nat) ^^^ (2 ^ 24 - 1))) = 2 ^ 29
  apply Nat.eq_of_testBit_eq
  intro i
  rw [Nat.testBit_land, Nat.testBit_lor, Nat.testBit_xor,
    Nat.testBit_two_pow_sub_one, Nat.testBit_two_pow_sub_one]
  rcases eq_or_ne 29 i with rfl | hne
  · rw [Nat.testBit_two_pow_self]; simp
  · rw [Nat.testBit_two_pow_of_ne hne]
    by_cases h24 : i < 24
    · have h64 : i < 64 := by omega
      simp [h24, h64]
    · have hfd : fd.testBit i = false :=
        Nat.testBit_eq_false_of_lt
          (lt_of_lt_of_le h (Nat.pow_le_pow_right (by norm_num) (Nat.le_of_not_lt h24)))
      simp [hfd, h24]

/-- The fd bits survive masking a packed request token with `FD_MASK`. -/
theorem request_lor_land_fd (fd : Nat) (h : fd < 2 ^ 24) :
    (REQUEST ||| fd) &&& FD_MASK = fd := by
  show ((2 ^ 29 ||| fd) &&& ((2 ^ 24 : Nat) - 1)) = fd
  apply Nat.eq_of_testBit_eq
  intro i
  rw [Nat.testBit_land, Nat.testBit_lor, Nat.testBit_two_pow_sub_one]
  by_cases h24 : i < 24
  · have hne : 29 ≠ i := by omega
    rw [Nat.testBit_two_pow_of_ne hne]
    simp [h24]
  · have hfd : fd.testBit i = false :=
      Nat.testBit_eq_false_of_lt
        (lt_of_lt_of_le h (Nat.pow_le_pow_right (by norm_num) (Nat.le_of_not_lt h24)))
    simp [hfd, h24]

/-- C5: converting a `HubToken` to an event-loop `Token` word and back recovers the
original value — for every fd with `fd < 2^24`, `Request fd` round-trips, and
`Conns` and `Events` round-trip likewise, so the hub recovers the exact stream
that was registered. -/
theorem hubToken_roundtrip (fd : Nat) (h : fd < 2 ^ 24) :
    hubTokenOfToken (HubToken.toToken (.Request fd)) = some (.Request fd)
    ∧ hubTokenOfToken (HubToken.toToken .Conns) = some .Conns
    ∧ hubTokenOfToken (HubToken.toToken .Events) = some .Events := by
  refine ⟨?_, by decide, by decide⟩
  show hubTokenOfToken (REQUEST ||| fd) = some (.Request fd)
  rw [hubTokenOfToken, request_lor_land_tag fd h, request_lor_land_fd fd h]
  norm_num [REQUEST, CONNS, EVENTS]

/-- Witness for C5 at the concrete fd 5. -/
theorem hubToken_roundtrip_witness :
    5 < 2 ^ 24
    ∧ hubTokenOfToken (HubToken.toToken (.Request 5)) = some (.Request 5) :=
  ⟨by norm_num, (hubToken_roundtrip 5 (by norm_num)).1⟩


/-- The keep-accumulating fold of `handle_event` filters by the write outcome. -/
theorem foldl_keep_eq (ok : TcpStream → Bool) :
    ∀ (l acc : List TcpStream),
      l.foldl (fun keep s => if ok s then keep ++ [s] else keep) acc
        = acc ++ l.filter ok
  | [], acc => by simp
  | s :: l, acc => by
    simp only [List.foldl_cons, List.filter_cons]
    by_cases hs : ok s <;> simp [hs, foldl_keep_eq ok l]

/-- `drainKeep` keeps exactly the streams whose write succeeded, in pop order. -/
theorem drainKeep_eq (ok : TcpStream → Bool) (l : List TcpStream) :
    drainKeep ok l = l.reverse.filter ok := by
  rw [drainKeep, foldl_keep_eq]
  simp

/-- C3: when the hub processes one incoming event it applies `stream_event` to
every live subscriber (the drained set is exactly the pointwise filter of the
popped subscribers by their own write outcome), and afterwards a subscriber is
in the set iff it was there before and its own write succeeded — so one
subscriber's failure neither removes another subscriber nor blocks delivery to
it. -/
theorem handle_event_keeps_exactly_successes
    (chanUpdate : ChannelParamsMap → TsbkFields → ChannelParamsMap)
    (wOk : TcpStream → HubEvent → Bool) (h : HubTask) (e : HubEvent) :
    (h.handle_event chanUpdate wOk e).streamers
        = h.streamers.reverse.filter (fun s => wOk s e)
    ∧ ∀ s : TcpStream,
        s ∈ (h.handle_event chanUpdate wOk e).streamers
          ↔ (s ∈ h.streamers ∧ wOk s e = true) := by
  refine ⟨by simp [HubTask.handle_event, drainKeep_eq], fun s => ?_⟩
  simp [HubTask.handle_event, drainKeep_eq, List.mem_filter]

/-- C8: state-event application is frame-bounded — `UpdateCtlFreq f` sets
`ctlfreq` to `f` and leaves `channels` unchanged; `UpdateChannelParams t`
applies the channel-map update and leaves `ctlfreq` unchanged; the channels map
is changed by `handle_event` only when an `UpdateChannelParams` state event is
processed (and then precisely by `chanUpdate`); and no non-State hub event
mutates the hub state at all. -/
theorem state_update_frame
    (chanUpdate : ChannelParamsMap → TsbkFields → ChannelParamsMap)
    (wOk : TcpStream → HubEvent → Bool) (s : State) (f : Nat) (t : TsbkFields)
    (h : HubTask) (e : HubEvent) :
    (s.update chanUpdate (.UpdateCtlFreq f)).ctlfreq = f
    ∧ (s.update chanUpdate (.UpdateCtlFreq f)).channels = s.channels
    ∧ (s.update chanUpdate (.UpdateChannelParams t)).channels
        = chanUpdate s.channels t
    ∧ (s.update chanUpdate (.UpdateChannelParams t)).ctlfreq = s.ctlfreq
    ∧ (h.handle_event chanUpdate wOk
          (.State (.UpdateChannelParams t))).state.channels
        = chanUpdate h.state.channels t
    ∧ ((∀ t', e ≠ .State (.UpdateChannelParams t')) →
        (h.handle_event chanUpdate wOk e).state.channels = h.state.channels)
    ∧ ((∀ sm, e ≠ .State sm) → (h.handle_event chanUpdate wOk e).state = h.state) := by
  refine ⟨rfl, rfl, rfl, rfl, rfl, fun hne => ?_, fun hns => ?_⟩
  · cases e with
    | State sm =>
      cases sm with
      | UpdateCtlFreq g => simp [HubTask.handle_event, State.update]
      | UpdateChannelParams t' => exact absurd rfl (hne t')
    | UpdateCurFreq g => rfl
    | UpdateTalkGroup tg => rfl
    | UpdateSignalPower p => rfl
    | TrunkingControl tk => rfl
    | LinkControl lc => rfl
  · cases e with
    | State sm => exact absurd rfl (hns sm)
    | UpdateCurFreq g => rfl
    | UpdateTalkGroup tg => rfl
    | UpdateSignalPower p => rfl
    | TrunkingControl tk => rfl
    | LinkControl lc => rfl

/-- Witness for C8: concrete frame effects, with both conditional conjuncts
discharged at the non-State event `UpdateCurFreq 3`. -/
theorem state_update_frame_witness :
    ((State.default.update (fun c _ => c) (.UpdateCtlFreq 7)).ctlfreq = 7)
    ∧ ((HubTask.handle_event (fun c _ => c) (fun _ _ => true)
          ⟨State.default, []⟩ (.UpdateCurFreq 3)).state.channels
        = State.default.channels)
    ∧ ((HubTask.handle_event (fun c _ => c) (fun _ _ => true)
          ⟨State.default, []⟩ (.UpdateCurFreq 3)).state = State.default) := by
  have T := state_update_frame (fun c _ => c) (fun _ _ => true) State.default 7
    ⟨0⟩ ⟨State.default, []⟩ (.UpdateCurFreq 3)
  exact ⟨T.1, T.2.2.2.2.2.1 (fun t' hcon => HubEvent.noConfusion hcon),
    T.2.2.2.2.2.2 (fun sm hcon => HubEvent.noConfusion hcon)⟩

/-- Across `handle_request` the streamers vector is either unchanged or extended
by the one subscriber push. -/
theorem handle_request_streamers_cases (h : HubTask) (r : HttpReqModel) :
    (h.handle_request r).streamers = h.streamers
    ∨ (h.handle_request r).streamers = streamersPush h.streamers r.newStream := by
  unfold HubTask.handle_request
  repeat' split
  all_goals first | (left; rfl) | (right; rfl)

/-- `handle_stream` answers errors on the socket but leaves the streamers vector
exactly as `handle_request` left it. -/
theorem handle_stream_streamers (h : HubTask) (r : HttpReqModel) :
    (h.handle_stream r).streamers = (h.handle_request r).streamers := by
  unfold HubTask.handle_stream
  rcases hres : (h.handle_request r).result with u | e <;> simp [hres]

/-- C2: the subscriber set never exceeds 4 streams — request handling and event
fan-out both preserve the bound; a GET /subscribe arriving while the set is full
is answered 429 Too Many Requests and leaves the set unchanged; and no subscribe
ever evicts an existing subscriber. -/
theorem streamers_bounded (h : HubTask) (r : HttpReqModel)
    (chanUpdate : ChannelParamsMap → TsbkFields → ChannelParamsMap)
    (wOk : TcpStream → HubEvent → Bool) (e : HubEvent)
    (hb : h.streamers.length ≤ 4) :
    (h.handle_stream r).streamers.length ≤ 4
    ∧ (h.handle_event chanUpdate wOk e).streamers.length ≤ 4
    ∧ (streamersFull h.streamers = true → r.method = .Get →
        r.path = "/subscribe" → r.version = (1, 1) → r.cloneOk = true →
        (h.handle_request r).result = .error .TooManyRequests
        ∧ (h.handle_stream r).streamers = h.streamers
        ∧ ClientWrite.status .TooManyRequests ∈ (h.handle_stream r).writes)
    ∧ (∀ s : TcpStream, s ∈ h.streamers → s ∈ (h.handle_stream r).streamers) := by
  refine ⟨?_, ?_, ?_, ?_⟩
  · rw [handle_stream_streamers]
    rcases handle_request_streamers_cases h r with hc | hc <;> rw [hc]
    · exact hb
    · unfold streamersPush
      split
      · simp only [List.length_append, List.length_singleton]
        omega
      · exact hb
  · show (drainKeep (fun s => wOk s e) h.streamers).length ≤ 4
    rw [drainKeep_eq]
    calc (h.streamers.reverse.filter (fun s => wOk s e)).length
        ≤ h.streamers.reverse.length := List.length_filter_le _ _
      _ = h.streamers.length := List.length_reverse _
      _ ≤ 4 := hb
  · intro hful hm hp hv hc
    rcases r with ⟨ver, m, path, js, co, ho, so, ns⟩
    simp only at hm hp hv hc
    subst hm hp hv hc
    have hreq : HubTask.handle_request h ⟨(1, 1), .Get, "/subscribe", js, true, ho, so, ns⟩
        = ⟨.error .TooManyRequests, h.streamers, [], []⟩ := by
      unfold HubTask.handle_request
      simp [routeFromPath, hful]
    refine ⟨by rw [hreq], by rw [handle_stream_streamers, hreq], ?_⟩
    unfold HubTask.handle_stream
    rw [hreq]
    simp
  · intro s hs
    rw [handle_stream_streamers]
    rcases handle_request_streamers_cases h r with hc | hc <;> rw [hc]
    · exact hs
    · unfold streamersPush
      split
      · exact List.mem_append_left _ hs
      · exact hs

/-- Witness for C2: a hub with four live subscribers, a fifth GET /subscribe,
and one event fan-out, all at concrete values. -/
theorem streamers_bounded_witness :
    (HubTask.handle_stream ⟨State.default, [1, 2, 3, 4]⟩
        ⟨(1, 1), .Get, "/subscribe", .error .NotFound, true, true, true, 9⟩).streamers.length ≤ 4
    ∧ (HubTask.handle_request ⟨State.default, [1, 2, 3, 4]⟩
        ⟨(1, 1), .Get, "/subscribe", .error .NotFound, true, true, true, 9⟩).result
        = .error .TooManyRequests
    ∧ (1 : TcpStream) ∈ (HubTask.handle_stream ⟨State.default, [1, 2, 3, 4]⟩
        ⟨(1, 1), .Get, "/subscribe", .error .NotFound, true, true, true, 9⟩).streamers := by
  have T := streamers_bounded ⟨State.default, [1, 2, 3, 4]⟩
    ⟨(1, 1), .Get, "/subscribe", .error .NotFound, true, true, true, 9⟩
    (fun c _ => c) (fun _ _ => true) (.UpdateCurFreq 0) (by simp)
  exact ⟨T.1, (T.2.2.1 rfl rfl rfl rfl rfl).1, T.2.2.2 1 (by simp)⟩

/-- C7: a PUT /ctlfreq whose body parses as ctlfreq F delivers SetControlFreq F
on the Receiver channel and answers 200 exactly when the channel send succeeds;
when the send fails it answers 500 and delivers nothing. -/
theorem put_ctlfreq_forwarding (h : HubTask) (r : HttpReqModel) (F : Nat)
    (hm : r.method = .Put) (hp : r.path = "/ctlfreq") (hv : r.version = (1, 1))
    (hj : r.jsonCtlfreq = .ok F) :
    (r.sendOk = true →
      (h.handle_stream r).recvSent = [.SetControlFreq F]
      ∧ (h.handle_stream r).writes = [.status .Ok]
      ∧ (h.handle_stream r).result = .ok ())
    ∧ (r.sendOk = false →
      (h.handle_stream r).recvSent = []
      ∧ (h.handle_stream r).writes = [.status .InternalServerError]
      ∧ (h.handle_stream r).result = .error .InternalServerError) := by
  rcases r with ⟨ver, m, path, js, co, ho, so, ns⟩
  simp only at hm hp hv hj
  subst hm hp hv hj
  constructor <;> intro hs <;> subst hs <;>
    simp [HubTask.handle_stream, HubTask.handle_request, routeFromPath]

/-- Witness for C7 at the concrete PUT body ctlfreq 851012500. -/
theorem put_ctlfreq_forwarding_witness :
    (HubTask.handle_stream ⟨State.default, []⟩
        ⟨(1, 1), .Put, "/ctlfreq", .ok 851012500, true, true, true, 9⟩).recvSent
      = [.SetControlFreq 851012500] :=
  ((put_ctlfreq_forwarding ⟨State.default, []⟩
    ⟨(1, 1), .Put, "/ctlfreq", .ok 851012500, true, true, true, 9⟩
    851012500 rfl rfl rfl rfl).1 rfl).1

/-- Folding `handle_event` over a sequence with no UpdateCtlFreq state event
leaves the control-frequency replica untouched. -/
theorem foldl_handle_event_ctlfreq
    (chanUpdate : ChannelParamsMap → TsbkFields → ChannelParamsMap)
    (wOk : TcpStream → HubEvent → Bool) :
    ∀ (events : List HubEvent) (h : HubTask),
      (∀ f, HubEvent.State (.UpdateCtlFreq f) ∉ events) →
      (events.foldl (HubTask.handle_event chanUpdate wOk) h).state.ctlfreq
        = h.state.ctlfreq
  | [], _, _ => rfl
  | e :: es, h, hne => by
    rw [List.foldl_cons,
      foldl_handle_event_ctlfreq chanUpdate wOk es _
        (fun f hf => hne f (List.mem_cons_of_mem _ hf))]
    cases e with
    | State sm =>
      cases sm with
      | UpdateCtlFreq f => exact absurd (List.mem_cons_self _ _) (hne f)
      | UpdateChannelParams t => rfl
    | UpdateCurFreq g => rfl
    | UpdateTalkGroup tg => rfl
    | UpdateSignalPower p => rfl
    | TrunkingControl tk => rfl
    | LinkControl lc => rfl

/-- C9: GET /ctlfreq always answers with the JSON ctlfreq taken from the hub's
current state, and after processing any event sequence containing no
UpdateCtlFreq state event the hub's value is still the sentinel u32 maximum
`2^32 - 1` of the default state — not the configured startup frequency. -/
theorem get_ctlfreq_reports_state (h : HubTask) (r : HttpReqModel)
    (chanUpdate : ChannelParamsMap → TsbkFields → ChannelParamsMap)
    (wOk : TcpStream → HubEvent → Bool) (events : List HubEvent)
    (hm : r.method = .Get) (hp : r.path = "/ctlfreq") (hv : r.version = (1, 1))
    (hne : ∀ f, HubEvent.State (.UpdateCtlFreq f) ∉ events) :
    ((h.handle_request r).writes = [.jsonCtlFreq h.state.ctlfreq]
      ∧ (h.handle_request r).result = .ok ())
    ∧ (events.foldl (HubTask.handle_event chanUpdate wOk)
          ⟨State.default, []⟩).state.ctlfreq = 2 ^ 32 - 1 := by
  refine ⟨?_, ?_⟩
  · rcases r with ⟨ver, m, path, js, co, ho, so, ns⟩
    simp only at hm hp hv
    subst hm hp hv
    constructor <;> simp [HubTask.handle_request, routeFromPath]
  · rw [foldl_handle_event_ctlfreq chanUpdate wOk events _ hne]
    rfl

/-- Witness for C9: a concrete GET /ctlfreq against the default hub after a
sequence of non-ctlfreq events. -/
theorem get_ctlfreq_reports_state_witness :
    (HubTask.handle_request ⟨State.default, []⟩
        ⟨(1, 1), .Get, "/ctlfreq", .error .NotFound, true, true, true, 9⟩).writes
      = [.jsonCtlFreq (2 ^ 32 - 1)]
    ∧ ([HubEvent.UpdateCurFreq 3, .UpdateTalkGroup 9].foldl
        (HubTask.handle_event (fun c _ => c) (fun _ _ => true))
          ⟨State.default, []⟩).state.ctlfreq = 2 ^ 32 - 1 := by
  have T := get_ctlfreq_reports_state ⟨State.default, []⟩
    ⟨(1, 1), .Get, "/ctlfreq", .error .NotFound, true, true, true, 9⟩
    (fun c _ => c) (fun _ _ => true) [.UpdateCurFreq 3, .UpdateTalkGroup 9]
    rfl rfl rfl (by intro f hf; simp at hf)
  exact ⟨T.1.1, T.2⟩

/-- C10: on GET /subscribe with a free subscriber slot, if writing the SSE
response header fails the handler still returns success, no status line is
written back to the client, and the subscriber set is unchanged. -/
theorem subscribe_header_fail_keeps_set (h : HubTask) (r : HttpReqModel)
    (hm : r.method = .Get) (hp : r.path = "/subscribe") (hv : r.version = (1, 1))
    (hc : r.cloneOk = true) (hful : streamersFull h.streamers = false)
    (hh : r.headerOk = false) :
    (h.handle_stream r).result = .ok ()
    ∧ (h.handle_stream r).streamers = h.streamers
    ∧ ∀ c : StatusCode, ClientWrite.status c ∉ (h.handle_stream r).writes := by
  rcases r with ⟨ver, m, path, js, co, ho, so, ns⟩
  simp only at hm hp hv hc hh
  subst hm hp hv hc hh
  have hreq : HubTask.handle_request h ⟨(1, 1), .Get, "/subscribe", js, true, false, so, ns⟩
      = ⟨.ok (), h.streamers, [], [.sseHeaderStart]⟩ := by
    unfold HubTask.handle_request
    simp [routeFromPath, hful]
  have hst : HubTask.handle_stream h ⟨(1, 1), .Get, "/subscribe", js, true, false, so, ns⟩
      = ⟨.ok (), h.streamers, [], [.sseHeaderStart]⟩ := by
    unfold HubTask.handle_stream
    rw [hreq]
  rw [hst]
  refine ⟨rfl, rfl, fun c hmem => ?_⟩
  simp at hmem

/-- Witness for C10: a concrete subscribe with three live subscribers whose
header write fails. -/
theorem subscribe_header_fail_keeps_set_witness :
    (HubTask.handle_stream ⟨State.default, [1, 2, 3]⟩
        ⟨(1, 1), .Get, "/subscribe", .error .NotFound, true, false, true, 9⟩).result
      = .ok ()
    ∧ (HubTask.handle_stream ⟨State.default, [1, 2, 3]⟩
        ⟨(1, 1), .Get, "/subscribe", .error .NotFound, true, false, true, 9⟩).streamers
      = [1, 2, 3] := by
  have T := subscribe_header_fail_keeps_set ⟨State.default, [1, 2, 3]⟩
    ⟨(1, 1), .Get, "/subscribe", .error .NotFound, true, false, true, 9⟩
    rfl rfl rfl rfl (by simp [streamersFull]) rfl
  exact ⟨T.1, T.2.1⟩

/-- One `feedOne` step preserves "played frames are exactly the voice payloads
of the yielded events". -/
theorem feedOne_invariant {σ τ φ ε ι : Type}
    (step : σ → ι → σ × Option (MessageEvent φ ε))
    (merge : τ → σ → τ × σ) (recordErr : τ → ε → τ)
    (a : FeedAcc σ τ φ ε) (x : ι)
    (ha : a.played = voiceFrames a.yielded) :
    (feedOne step merge recordErr a x).played
      = voiceFrames (feedOne step merge recordErr a x).yielded := by
  unfold feedOne
  rcases hstep : step a.msg x with ⟨m, oev⟩
  rcases oev with _ | ev
  · simpa using ha
  · rcases ev with e | vf | _ <;>
      simp [voiceFrames, List.filterMap_append, MessageEvent.toVoice, ha]

/-- The invariant of `feedOne_invariant` carried through a whole sample list. -/
theorem feed_invariant {σ τ φ ε ι : Type}
    (step : σ → ι → σ × Option (MessageEvent φ ε))
    (merge : τ → σ → τ × σ) (recordErr : τ → ε → τ) :
    ∀ (samples : List ι) (a : FeedAcc σ τ φ ε),
      a.played = voiceFrames a.yielded →
      (ReplayReceiver.feed step merge recordErr a samples).played
        = voiceFrames (ReplayReceiver.feed step merge recordErr a samples).yielded
  | [], _, ha => ha
  | x :: l, a, ha =>
    feed_invariant step merge recordErr l (feedOne step merge recordErr a x)
      (feedOne_invariant step merge recordErr a x ha)

/-- C4: over every baseband sample sequence — for any behaviour of the external
decoder, stats merging and error recording — the frames the replay receiver
plays to the audio output are exactly the payloads of the VoiceFrame events the
decoder yields, in yield order; in particular their numbers are equal. -/
theorem feed_plays_voice_frames {σ τ φ ε ι : Type}
    (step : σ → ι → σ × Option (MessageEvent φ ε))
    (merge : τ → σ → τ × σ) (recordErr : τ → ε → τ)
    (m0 : σ) (s0 : τ) (samples : List ι) :
    (ReplayReceiver.feed step merge recordErr ⟨m0, s0, [], []⟩ samples).played
      = voiceFrames
          (ReplayReceiver.feed step merge recordErr ⟨m0, s0, [], []⟩ samples).yielded :=
  feed_invariant step merge recordErr samples ⟨m0, s0, [], []⟩ rfl

/-- A file that fits in one read still causes the whole buffer to be fed: the
loop feeds the chunk followed by the stale tail of the reused buffer. -/
theorem replayLoop_small {α : Type} (buf : List α) (x : α) (rest : List α)
    (h : (x :: rest).length ≤ BUF_SAMPLES) :
    replayLoop buf (x :: rest) = (x :: rest) ++ buf.drop (x :: rest).length := by
  have ht := List.take_of_length_le h
  have hd := List.drop_eq_nil_of_le h
  simp only [replayLoop, ht, hd]
  simp

/-- C1, evaluated at the failing input: on a replay file holding the single
sample 5, the replay loop feeds the decoder the entire 8192-sample buffer — the
file's one sample followed by 8191 zero-padding samples from the untouched
buffer tail — not the one sample the claim requires (`&buf[..]` is fed although
`read` returned only `size = 4` bytes, replay.rs:31-37). -/
theorem replay_feeds_whole_buffer :
    replayFedSamples (0 : Int) [5] = 5 :: List.replicate 8191 0
    ∧ (replayFedSamples (0 : Int) [5]).length = 8192
    ∧ replayFedSamples (0 : Int) [5] ≠ [5] := by
  have hdr : (List.replicate BUF_SAMPLES (0 : Int)).drop 1 = List.replicate 8191 0 := by
    rw [List.drop_replicate]
    norm_num [BUF_SAMPLES]
  have h1 : replayFedSamples (0 : Int) [5] = 5 :: List.replicate 8191 0 := by
    rw [replayFedSamples, replayLoop_small _ 5 [] (by norm_num [BUF_SAMPLES]),
      List.length_singleton, hdr, List.singleton_append]
  refine ⟨h1, ?_, ?_⟩
  · rw [h1, List.length_cons, List.length_replicate]
  · rw [h1]
    intro hcon
    have hlen := congrArg List.length hcon
    rw [List.length_cons, List.length_replicate, List.length_singleton] at hlen
    omega

/-- C6, counterexample at fd 7: in the Request arm of `handle_poll` the owning
stream is reconstructed from the fd *before* the fd is deregistered from the
poll set, so deregistration does not precede reconstruction. -/
theorem deregister_not_before_reconstruct :
    ¬ occursBefore (.Deregister 7) (.MkStream 7) (handle_poll_request 7) := by
  show ¬ List.Sublist [HubAction.Deregister 7, HubAction.MkStream 7] (handle_poll_request 7)
  decide

/-- C6 as amended: for every fd, the Request arm of `handle_poll` reconstructs
the owning stream from the fd first, deregisters the fd from the poll set
immediately afterwards, and only then handles the stream — so deregistration
precedes all request I/O on the stream, though not the reconstruction itself. -/
theorem reconstruct_then_deregister_before_io (fd : Nat) :
    occursBefore (.MkStream fd) (.Deregister fd) (handle_poll_request fd)
    ∧ occursBefore (.Deregister fd) (.HandleStream fd) (handle_poll_request fd) := by
  constructor
  · show List.Sublist [HubAction.MkStream fd, HubAction.Deregister fd]
      (handle_poll_request fd)
    exact List.sublist_append_left
      [HubAction.MkStream fd, HubAction.Deregister fd] [HubAction.HandleStream fd]
  · show List.Sublist [HubAction.Deregister fd, HubAction.HandleStream fd]
      (handle_poll_request fd)
    exact List.Sublist.cons (HubAction.MkStream fd) (List.Sublist.refl _)

end P25rx
